/-
Verification of the CryptoBot repository (cryptoBot1.py and CryptoBot.py)
against its natural-language specification.

Shallow embedding conventions:
* Python floats are modelled as rationals (ℚ); the claims under study are
  about guards, rankings, lengths and sums, not about rounding.
* A fetched API asset is a `RawCoin` whose fields are `Option`-valued: a
  `none` field models a missing or malformed JSON field, so that a Python
  KeyError on `coin[...]` access becomes an `Except.error`.
* pandas `nlargest`/`nsmallest` (default keep = first) are modelled as a
  stable sort by the key (descending resp. ascending) followed by `take n`;
  `List.insertionSort` is stable, matching pandas tie handling.
* Side effects (SQLite inserts, raw-archive JSON files, Telegram HTTP calls)
  are modelled as data recorded in a `CycleEffects` value; log lines are not
  modelled.  Timestamps are not modelled (they never influence control flow).
* Strings sent to Telegram are modelled as `List Char`.
-/
import Mathlib

/-! ## Data model (cryptoBot1.py) -/

/-- One asset of the fetched CoinMarketCap payload.  Each field a `some`
when the corresponding JSON field is present and well formed, `none` when
accessing it raises (KeyError / TypeError). -/
structure RawCoin where
  id : Option ℚ
  name : Option String
  symbol : Option String
  price : Option ℚ
  market_cap : Option ℚ
  volume_24h : Option ℚ
  percent_change_1h : Option ℚ
  percent_change_24h : Option ℚ
  percent_change_7d : Option ℚ
deriving DecidableEq

/-- One row of the pandas DataFrame built by `convert_to_dataframe`
(the per-cycle snapshot used for analysis). -/
structure Coin where
  id : ℚ
  name : String
  symbol : String
  price : ℚ
  market_cap : ℚ
  volume_24h : ℚ
  percent_change_1h : ℚ
  percent_change_24h : ℚ
  percent_change_7d : ℚ
  volume_to_market_cap : ℚ
deriving DecidableEq

/-- One row of the `crypto_data` SQLite table inserted by `save_data_to_db`
(the timestamp column is not modelled). -/
structure DbRow where
  id : ℚ
  symbol : String
  name : String
  price : ℚ
  market_cap : ℚ
  volume_24h : ℚ
  percent_change_1h : ℚ
  percent_change_24h : ℚ
  percent_change_7d : ℚ
deriving DecidableEq

/-- A Python dict/field access: `some` yields the value, `none` raises. -/
def req {α : Type} (o : Option α) : Except Unit α :=
  match o with
  | some a => Except.ok a
  | none => Except.error ()

/-- The guarded ratio of cryptoBot1.py line 166:
`volume_24h / market_cap if market_cap > 0 else 0`. -/
def volume_to_market_cap (v mc : ℚ) : ℚ :=
  if 0 < mc then v / mc else 0

/-- The dict literal built for one coin inside `convert_to_dataframe`
(lines 156-167), including the derived `volume_to_market_cap` field. -/
def mkCoinRow (i : ℚ) (n s : String) (p mc v p1 p24 p7 : ℚ) : Coin :=
  ⟨i, n, s, p, mc, v, p1, p24, p7, volume_to_market_cap v mc⟩

/-- Field extraction for one coin in `convert_to_dataframe`: the accesses
happen in the order of the dict literal and the first failing access
raises out of the whole function (there is no try/except here). -/
def extractCoin (c : RawCoin) : Except Unit Coin := do
  let i ← req c.id
  let n ← req c.name
  let s ← req c.symbol
  let p ← req c.price
  let mc ← req c.market_cap
  let v ← req c.volume_24h
  let p1 ← req c.percent_change_1h
  let p24 ← req c.percent_change_24h
  let p7 ← req c.percent_change_7d
  Except.ok (mkCoinRow i n s p mc v p1 p24 p7)

/-- The `for coin in data` loop of `convert_to_dataframe`: builds the row
list in order; a failing field access aborts the whole loop. -/
def extract_list : List RawCoin → Except Unit (List Coin)
  | [] => Except.ok []
  | c :: rest => do
    let x ← extractCoin c
    let xs ← extract_list rest
    Except.ok (x :: xs)

/-- `convert_to_dataframe` (lines 148-171): returns `none` for falsy input
(`if not data: return None`), otherwise the DataFrame rows; an uncaught
field-access failure propagates as `Except.error`. -/
def convert_to_dataframe (data : List RawCoin) : Except Unit (Option (List Coin)) :=
  if data.isEmpty then Except.ok none
  else (extract_list data).map some

/-- Field extraction for the insert tuple of `save_data_to_db`
(lines 114-127), in source order. -/
def extractDbRow (c : RawCoin) : Except Unit DbRow := do
  let i ← req c.id
  let s ← req c.symbol
  let n ← req c.name
  let p ← req c.price
  let mc ← req c.market_cap
  let v ← req c.volume_24h
  let p1 ← req c.percent_change_1h
  let p24 ← req c.percent_change_24h
  let p7 ← req c.percent_change_7d
  Except.ok ⟨i, s, n, p, mc, v, p1, p24, p7⟩

/-- `save_data_to_db` (lines 103-133): returns the rows actually inserted.
Each coin's insert is wrapped in its own try/except, so a failing coin is
skipped and the loop continues. -/
def save_data_to_db (data : List RawCoin) : List DbRow :=
  if data.isEmpty then []
  else
    data.foldl (fun rows c =>
      match extractDbRow c with
      | Except.ok r => rows ++ [r]
      | Except.error _ => rows) []

/-! ## Fetcher (cryptoBot1.py, get_crypto_data) -/

/-- Outcome of the HTTP GET inside `get_crypto_data`: a response with a
status code and (when parseable) a body, a requests exception
(network error / timeout), or any other exception. -/
inductive FetchOutcome where
  | response (status : Nat) (body : List RawCoin)
  | requestException
  | otherException
deriving DecidableEq

/-- `get_crypto_data` (lines 83-101): returns the `data` array on HTTP 200
and `None` on any non-200 status or exception. -/
def get_crypto_data (o : FetchOutcome) : Option (List RawCoin) :=
  match o with
  | FetchOutcome.response s body => if s = 200 then some body else none
  | FetchOutcome.requestException => none
  | FetchOutcome.otherException => none

/-! ## Analyzer (cryptoBot1.py, analyze_market_data) -/

/-- Model of pandas `nlargest n key` with default keep = first: stable
sort by the key descending, then the first `n` rows. -/
def nlargest (n : Nat) (key : Coin → ℚ) (l : List Coin) : List Coin :=
  (@List.insertionSort Coin (fun a b => key b ≤ key a)
    (fun a b => inferInstanceAs (Decidable (key b ≤ key a))) l).take n

/-- Model of pandas `nsmallest n key` with default keep = first: stable
sort by the key ascending, then the first `n` rows. -/
def nsmallest (n : Nat) (key : Coin → ℚ) (l : List Coin) : List Coin :=
  (@List.insertionSort Coin (fun a b => key a ≤ key b)
    (fun a b => inferInstanceAs (Decidable (key a ≤ key b))) l).take n

/-- `top_gainers` (line 181). -/
def top_gainers (l : List Coin) : List Coin :=
  nlargest 5 Coin.percent_change_24h l

/-- `top_losers` (line 182). -/
def top_losers (l : List Coin) : List Coin :=
  nsmallest 5 Coin.percent_change_24h l

/-- `high_liquidity` (line 185). -/
def high_liquidity (l : List Coin) : List Coin :=
  nlargest 5 Coin.volume_to_market_cap l

/-- The `volatility` column (line 188): `abs(pc_1h - pc_24h / 24)`. -/
def volatility (c : Coin) : ℚ :=
  |c.percent_change_1h - c.percent_change_24h / 24|

/-- `high_volatility` (line 189). -/
def high_volatility (l : List Coin) : List Coin :=
  nlargest 5 volatility l

/-- The `trend_consistency` column (lines 192-196): 1 when the 1h, 24h and
7d changes are all strictly positive or all strictly negative, else 0. -/
def trend_consistency (c : Coin) : Nat :=
  if (0 < c.percent_change_1h ∧ 0 < c.percent_change_24h ∧ 0 < c.percent_change_7d) ∨
     (c.percent_change_1h < 0 ∧ c.percent_change_24h < 0 ∧ c.percent_change_7d < 0)
  then 1 else 0

/-- `strong_trends` (line 197): filter `trend_consistency == 1`, then the
5 with largest market_cap. -/
def strong_trends (l : List Coin) : List Coin :=
  nlargest 5 Coin.market_cap (l.filter fun c => trend_consistency c = 1)

/-- `total_market_cap` (line 200): sum over the snapshot. -/
def total_market_cap (l : List Coin) : ℚ :=
  (l.map Coin.market_cap).sum

/-- The `market_dominance` column (line 201):
`market_cap / total_market_cap * 100 if total_market_cap > 0 else 0`. -/
def market_dominance (l : List Coin) (c : Coin) : ℚ :=
  if 0 < total_market_cap l then c.market_cap / total_market_cap l * 100 else 0

/-- The `market_dominance` view (line 202): top 5 by dominance. -/
def market_dominance_view (l : List Coin) : List Coin :=
  nlargest 5 (market_dominance l) l

/-- The six ranked views returned by `analyze_market_data`. -/
structure AnalysisResults where
  top_gainers : List Coin
  top_losers : List Coin
  high_liquidity : List Coin
  high_volatility : List Coin
  strong_trends : List Coin
  market_dominance : List Coin
deriving DecidableEq

/-- `analyze_market_data` (lines 173-216): empty results when the
DataFrame is `None` or empty, otherwise the six views. -/
def analyze_market_data (df : Option (List Coin)) : AnalysisResults :=
  match df with
  | none => ⟨[], [], [], [], [], []⟩
  | some l =>
    if l.isEmpty then ⟨[], [], [], [], [], []⟩
    else
      ⟨top_gainers l, top_losers l, high_liquidity l, high_volatility l,
       strong_trends l, market_dominance_view l⟩

/-- Number of rows `save_analysis_results` (lines 218-242) inserts into the
`analysis_results` table: one per record of each view (every record carries
a `symbol` key); assumes no primary-key collision aborts the loop. -/
def analysisRowCount (r : AnalysisResults) : Nat :=
  r.top_gainers.length + r.top_losers.length + r.high_liquidity.length +
    r.high_volatility.length + r.strong_trends.length + r.market_dominance.length

/-! ## Notifier (cryptoBot1.py, send_message_to_telegram) -/

/-- One Telegram API call: `sendPhoto` with a caption, or `sendMessage`
with a text. -/
inductive Payload where
  | photoMsg (caption : List Char)
  | textMsg (text : List Char)
deriving DecidableEq

/-- The chunking comprehension of line 422:
`[message[i:i+4000] for i in range(0, len(message), 4000)]`. -/
def chunk4000 (s : List Char) : List (List Char) :=
  if s.isEmpty then []
  else s.take 4000 :: chunk4000 (s.drop 4000)
termination_by s.length
decreasing_by
  rename_i h
  have hs : s ≠ [] := by simpa using h
  have := List.length_pos.mpr hs
  simp [List.length_drop]
  omega

/-- `send_message_to_telegram` (lines 397-442), as the list of Telegram API
calls it makes.  `photo` is true when a photo path is given and the file
exists.  The photo branch sends the first 1024 characters as caption and
recursively resubmits the rest as plain text; the text branch splits
messages over 4000 characters into 4000-character chunks. -/
def send_message_to_telegram (message : List Char) (photo : Bool) : List Payload :=
  if photo then
    Payload.photoMsg (message.take 1024) ::
      (if h : 1024 < message.length
       then send_message_to_telegram (message.drop 1024) false
       else [])
  else
    if 4000 < message.length then (chunk4000 message).map Payload.textMsg
    else [Payload.textMsg message]
termination_by message.length
decreasing_by simp [List.length_drop]; omega

/-! ## Alerts (cryptoBot1.py, check_for_alerts) -/

/-- The content of one movement-alert message (line 456): coin name and
symbol, direction (`subido` when the 1h change is positive), and the
absolute 1h change interpolated into the text. -/
structure Alert where
  name : String
  symbol : String
  subida : Bool
  magnitude : ℚ
deriving DecidableEq

/-- The alert string built for one big mover (lines 454-457). -/
def mkAlert (c : Coin) : Alert :=
  ⟨c.name, c.symbol, decide (0 < c.percent_change_1h), |c.percent_change_1h|⟩

/-- `check_for_alerts` (lines 444-464): empty for a `None` or empty
DataFrame; otherwise one alert appended per coin with `|pc_1h| > 10`,
in DataFrame order.  (`previous_df` is unused by the source.) -/
def check_for_alerts (df : Option (List Coin)) : List Alert :=
  match df with
  | none => []
  | some l =>
    if l.isEmpty then []
    else
      (l.filter fun c => 10 < |c.percent_change_1h|).foldl
        (fun alerts c => alerts ++ [mkAlert c]) []

/-! ## Cycle pipeline (cryptoBot1.py, process_crypto_data) -/

/-- Observable store/notifier effects of one `process_crypto_data` call:
raw-archive JSON files written, rows inserted into `crypto_data`, rows
inserted into `analysis_results`, and top-level Notifier invocations. -/
structure CycleEffects where
  rawWrites : Nat
  quoteRows : List DbRow
  analysisRows : Nat
  telegramCalls : Nat
deriving DecidableEq

/-- `process_crypto_data` (lines 466-508): effects of one cycle, paired
with whether the call raised an exception.  A falsy fetch result skips the
cycle with no effects; otherwise raw archive and DB save happen first, then
the DataFrame conversion (whose field-access failures are uncaught and
propagate), then analysis, then one Notifier call for alerts when any, and
one for the full report. -/
def process_crypto_data (fetched : Option (List RawCoin)) : CycleEffects × Bool :=
  match fetched with
  | none => (⟨0, [], 0, 0⟩, false)
  | some data =>
    if data.isEmpty then (⟨0, [], 0, 0⟩, false)
    else
      let rows := save_data_to_db data
      match convert_to_dataframe data with
      | Except.error _ => (⟨1, rows, 0, 0⟩, true)
      | Except.ok df =>
        let results := analyze_market_data df
        let alerts := check_for_alerts df
        let calls := (if alerts.isEmpty then 0 else 1) + 1
        (⟨1, rows, analysisRowCount results, calls⟩, false)

/-! ## Scheduler loop (cryptoBot1.py, main) -/

/-- Exceptions relevant to the main loop. -/
inductive PyExn where
  | keyboardInterrupt
  | otherExn
deriving DecidableEq

/-- What one execution of `process_crypto_data` does from the loop's point
of view: return normally, be interrupted by the user, or raise any other
exception. -/
inductive CycleOutcome where
  | ok
  | kbInterrupt
  | exn
deriving DecidableEq

/-- Running one cycle, as an exception-raising computation. -/
def run_cycle (o : CycleOutcome) : Except PyExn Unit :=
  match o with
  | CycleOutcome.ok => Except.ok ()
  | CycleOutcome.kbInterrupt => Except.error PyExn.keyboardInterrupt
  | CycleOutcome.exn => Except.error PyExn.otherExn

/-- One iteration of the `while True` body (lines 521-532): sleep the fetch
interval, run the cycle; `KeyboardInterrupt` breaks the loop, any other
exception is caught and followed by a fixed 60-second sleep.  Returns
(continue?, sleeps performed this iteration, in seconds). -/
def loop_iter (interval : Nat) (o : CycleOutcome) : Bool × List Nat :=
  match run_cycle o with
  | Except.ok _ => (true, [interval])
  | Except.error PyExn.keyboardInterrupt => (false, [interval])
  | Except.error PyExn.otherExn => (true, [interval, 60])

/-- The `while True` loop over a finite prefix of cycle outcomes, as the
trace of sleeps it performs. -/
def main_loop (interval : Nat) : List CycleOutcome → List Nat
  | [] => []
  | o :: rest =>
    match loop_iter interval o with
    | (true, sl) => sl ++ main_loop interval rest
    | (false, sl) => sl

namespace CryptoBot1

/-- `main` (lines 510-532): the first immediate `process_crypto_data` call
(line 518) runs outside any try/except, so an exception there propagates
and terminates the process (`Except.error`); afterwards the guarded loop
runs. -/
def main (interval : Nat) (first : CycleOutcome) (rest : List CycleOutcome) :
    Except PyExn (List Nat) :=
  match run_cycle first with
  | Except.error e => Except.error e
  | Except.ok _ => Except.ok (main_loop interval rest)

end CryptoBot1

/-! ## The simple variant (CryptoBot.py) -/

namespace CryptoBot

/-- A Telegram send of the simple script: either the formatted top-coins
report or the fetch-failure warning message. -/
inductive SimplePayload where
  | report
  | warning
deriving DecidableEq

/-- CryptoBot.py `get_crypto_data` (lines 17-24): the `data` array on
HTTP 200, otherwise `None` (no exception handling here). -/
def get_crypto_data (status : Nat) (body : List RawCoin) : Option (List RawCoin) :=
  if status = 200 then some body else none

/-- The body of one iteration of CryptoBot.py `main` (lines 49-56): send
the report when the fetched data is truthy, otherwise send exactly one
warning message. -/
def main_iteration (fetched : Option (List RawCoin)) : List SimplePayload :=
  match fetched with
  | some d => if d.isEmpty then [SimplePayload.warning] else [SimplePayload.report]
  | none => [SimplePayload.warning]

end CryptoBot

/-! ## Concrete sample inputs used by witnesses and counterexamples -/

/-- A snapshot row with the given symbol, percent changes, market cap and
volume (id 0, price 1, name = symbol, liquidity ratio field 0). -/
def sampleCoin (sym : String) (p1 p24 p7 mc v : ℚ) : Coin :=
  ⟨0, sym, sym, 1, mc, v, p1, p24, p7, 0⟩

/-- A fully well-formed fetched asset. -/
def goodRaw : RawCoin :=
  ⟨some 1, some "Bitcoin", some "BTC", some 50000, some 1000000000,
   some 30000000, some 1, some 2, some 3⟩

/-- A fetched asset whose `market_cap` field is missing, so any access to
it raises. -/
def badRaw : RawCoin :=
  ⟨some 2, some "Ethereum", some "ETH", some 4000, none,
   some 20000000, some 1, some 2, some 3⟩

/-- Two coins whose market caps are 30 and 70. -/
def twoCoins : List Coin :=
  [sampleCoin "A" 0 0 0 30 1, sampleCoin "B" 0 0 0 70 1]

/-- Three coins, all with strictly positive 1h/24h/7d changes, with market
caps 300, 100 and 200. -/
def threeUp : List Coin :=
  [sampleCoin "X" 1 2 3 300 10, sampleCoin "Y" 1 2 3 100 10,
   sampleCoin "Z" 1 2 3 200 10]

/-- Eleven coins with pairwise distinct 24h changes 1..11. -/
def elevenCoins : List Coin :=
  [sampleCoin "A" 0 1 0 1 1, sampleCoin "B" 0 2 0 1 1, sampleCoin "C" 0 3 0 1 1,
   sampleCoin "D" 0 4 0 1 1, sampleCoin "E" 0 5 0 1 1, sampleCoin "F" 0 6 0 1 1,
   sampleCoin "G" 0 7 0 1 1, sampleCoin "H" 0 8 0 1 1, sampleCoin "I" 0 9 0 1 1,
   sampleCoin "J" 0 10 0 1 1, sampleCoin "K" 0 11 0 1 1]

/-! ## Helper lemmas about sort-and-take (the model of nlargest/nsmallest) -/

theorem sortTake_length {α : Type} (r : α → α → Prop) [DecidableRel r] (n : Nat) (l : List α) :
    ((List.insertionSort r l).take n).length = min n l.length := by
  rw [List.length_take, (List.perm_insertionSort r l).length_eq]

theorem sortTake_subset {α : Type} (r : α → α → Prop) [DecidableRel r] {n : Nat} {l : List α}
    {x : α} (h : x ∈ (List.insertionSort r l).take n) : x ∈ l :=
  (List.perm_insertionSort r l).mem_iff.mp ((List.take_sublist n _).subset h)

theorem sortTake_pairwise {α : Type} (r : α → α → Prop) [DecidableRel r]
    (htot : ∀ a b, r a b ∨ r b a) (htrans : ∀ a b c, r a b → r b c → r a c)
    (n : Nat) (l : List α) : ((List.insertionSort r l).take n).Pairwise r := by
  haveI : IsTotal α r := ⟨htot⟩
  haveI : IsTrans α r := ⟨fun a b c => htrans a b c⟩
  exact (List.sorted_insertionSort r l).sublist (List.take_sublist n _)

theorem sortTake_rel {α : Type} (r : α → α → Prop) [DecidableRel r]
    (htot : ∀ a b, r a b ∨ r b a) (htrans : ∀ a b c, r a b → r b c → r a c)
    {n : Nat} {l : List α} {g x : α}
    (hg : g ∈ (List.insertionSort r l).take n) (hx : x ∈ l)
    (hnx : x ∉ (List.insertionSort r l).take n) : r g x := by
  haveI : IsTotal α r := ⟨htot⟩
  haveI : IsTrans α r := ⟨fun a b c => htrans a b c⟩
  have hs : (List.insertionSort r l).Pairwise r := List.sorted_insertionSort r l
  have hxs : x ∈ List.insertionSort r l := (List.perm_insertionSort r l).mem_iff.mpr hx
  have hsplit := List.take_append_drop n (List.insertionSort r l)
  rw [← hsplit] at hxs
  have hxd : x ∈ (List.insertionSort r l).drop n := by
    rcases List.mem_append.mp hxs with h | h
    · exact absurd h hnx
    · exact h
  have hp : ((List.insertionSort r l).take n ++ (List.insertionSort r l).drop n).Pairwise r := by
    rw [hsplit]; exact hs
  exact (List.pairwise_append.mp hp).2.2 g hg x hxd

theorem sortTake_all {α : Type} (r : α → α → Prop) [DecidableRel r] {n : Nat} {l : List α}
    (h : l.length ≤ n) {x : α} (hx : x ∈ l) : x ∈ (List.insertionSort r l).take n := by
  have hlen : (List.insertionSort r l).length ≤ n := by
    rw [(List.perm_insertionSort r l).length_eq]; exact h
  rw [List.take_of_length_le hlen]
  exact (List.perm_insertionSort r l).mem_iff.mpr hx

theorem nlargest_length (n : Nat) (key : Coin → ℚ) (l : List Coin) :
    (nlargest n key l).length = min n l.length :=
  sortTake_length _ n l

theorem nlargest_subset {n : Nat} {key : Coin → ℚ} {l : List Coin} {x : Coin}
    (h : x ∈ nlargest n key l) : x ∈ l :=
  sortTake_subset _ h

theorem nlargest_pairwise (n : Nat) (key : Coin → ℚ) (l : List Coin) :
    (nlargest n key l).Pairwise fun a b => key b ≤ key a :=
  sortTake_pairwise _ (fun a b => le_total (key b) (key a))
    (fun _ _ _ h1 h2 => le_trans h2 h1) n l

theorem nlargest_rel {n : Nat} {key : Coin → ℚ} {l : List Coin} {g x : Coin}
    (hg : g ∈ nlargest n key l) (hx : x ∈ l) (hnx : x ∉ nlargest n key l) :
    key x ≤ key g :=
  sortTake_rel _ (fun a b => le_total (key b) (key a))
    (fun _ _ _ h1 h2 => le_trans h2 h1) hg hx hnx

theorem nlargest_all {n : Nat} {key : Coin → ℚ} {l : List Coin}
    (h : l.length ≤ n) {x : Coin} (hx : x ∈ l) : x ∈ nlargest n key l :=
  sortTake_all _ h hx

theorem nsmallest_length (n : Nat) (key : Coin → ℚ) (l : List Coin) :
    (nsmallest n key l).length = min n l.length :=
  sortTake_length _ n l

theorem nsmallest_subset {n : Nat} {key : Coin → ℚ} {l : List Coin} {x : Coin}
    (h : x ∈ nsmallest n key l) : x ∈ l :=
  sortTake_subset _ h

theorem nsmallest_rel {n : Nat} {key : Coin → ℚ} {l : List Coin} {g x : Coin}
    (hg : g ∈ nsmallest n key l) (hx : x ∈ l) (hnx : x ∉ nsmallest n key l) :
    key g ≤ key x :=
  sortTake_rel _ (fun a b => le_total (key a) (key b))
    (fun _ _ _ h1 h2 => le_trans h1 h2) hg hx hnx

/-! ## Claim theorems -/

/-- Claim C5 (confirmed): for every snapshot, `top_gainers` and
`top_losers` each have size min(5, snapshot size), draw their assets from
the snapshot, every selected gainer has a 24h change at least as large as
every non-selected asset (dually for losers), and the two views share no
asset whenever the snapshot has more than 10 assets and no single
percent_change_24h value occurs in both views. -/
theorem C5_thm (l : List Coin) :
    (top_gainers l).length = min 5 l.length ∧
    (top_losers l).length = min 5 l.length ∧
    (∀ g ∈ top_gainers l, g ∈ l) ∧
    (∀ x ∈ top_losers l, x ∈ l) ∧
    (∀ g ∈ top_gainers l, ∀ x ∈ l, x ∉ top_gainers l →
      x.percent_change_24h ≤ g.percent_change_24h) ∧
    (∀ x ∈ top_losers l, ∀ y ∈ l, y ∉ top_losers l →
      x.percent_change_24h ≤ y.percent_change_24h) ∧
    (10 < l.length →
      (∀ g ∈ top_gainers l, ∀ x ∈ top_losers l,
        g.percent_change_24h ≠ x.percent_change_24h) →
      ∀ g ∈ top_gainers l, g ∉ top_losers l) := by
  refine ⟨nlargest_length 5 _ l, nsmallest_length 5 _ l,
    fun g hg => nlargest_subset hg, fun x hx => nsmallest_subset hx,
    fun g hg x hx hnx => nlargest_rel hg hx hnx,
    fun x hx y hy hny => nsmallest_rel hx hy hny,
    fun _ hnospan g hg hgl => ?_⟩
  exact hnospan g hg g hgl rfl

/-- Witness for C5 at the 11-coin snapshot with distinct 24h changes: the
asset with the largest 24h change is a gainer and not a loser. -/
theorem C5_witness : sampleCoin "K" 0 11 0 1 1 ∉ top_losers elevenCoins := by
  have h := (C5_thm elevenCoins).2.2.2.2.2.2
  exact h (by decide) (by decide) (sampleCoin "K" 0 11 0 1 1) (by decide)

/-- Claim C8 (confirmed): `strong_trends` draws from the snapshot exactly
assets whose 1h/24h/7d changes share one strict sign, has size
min(5, number of such assets), is ordered by market_cap descending, every
selected asset has market_cap at least that of any non-selected same-sign
asset, and for a snapshot of at most 5 assets all with positive changes it
contains them all (in particular a 3-asset all-positive snapshot). -/
theorem C8_thm (l : List Coin) :
    (∀ x ∈ strong_trends l, x ∈ l ∧ trend_consistency x = 1) ∧
    (strong_trends l).length =
      min 5 (l.filter fun c => trend_consistency c = 1).length ∧
    (strong_trends l).Pairwise (fun a b => b.market_cap ≤ a.market_cap) ∧
    (∀ x ∈ strong_trends l, ∀ y ∈ l, trend_consistency y = 1 →
      y ∉ strong_trends l → y.market_cap ≤ x.market_cap) ∧
    ((∀ c ∈ l, 0 < c.percent_change_1h ∧ 0 < c.percent_change_24h ∧
        0 < c.percent_change_7d) →
      l.length ≤ 5 → ∀ c ∈ l, c ∈ strong_trends l) := by
  refine ⟨?_, nlargest_length 5 _ _, nlargest_pairwise 5 _ _, ?_, ?_⟩
  · intro x hx
    have hmem := nlargest_subset hx
    have := List.mem_filter.mp hmem
    refine ⟨this.1, ?_⟩
    simpa using this.2
  · intro x hx y hy hty hny
    have hyf : y ∈ l.filter fun c => trend_consistency c = 1 :=
      List.mem_filter.mpr ⟨hy, by simpa using hty⟩
    exact nlargest_rel hx hyf hny
  · intro hall hlen c hc
    have hfilter : (l.filter fun c => trend_consistency c = 1) = l := by
      refine List.filter_eq_self.mpr fun a ha => ?_
      have := hall a ha
      simp [trend_consistency, this.1, this.2.1, this.2.2]
    unfold strong_trends
    rw [hfilter]
    exact nlargest_all hlen hc

/-- Witness for C8 at the all-positive 3-asset snapshot: the asset with
the smallest market cap is still selected. -/
theorem C8_witness : sampleCoin "Y" 1 2 3 100 10 ∈ strong_trends threeUp := by
  have h := (C8_thm threeUp).2.2.2.2
  exact h (by decide) (by decide) (sampleCoin "Y" 1 2 3 100 10) (by decide)

/-! ## Helper lemmas about the Notifier -/

theorem chunk4000_nil : chunk4000 [] = [] := by
  rw [chunk4000]
  rfl

theorem chunk4000_cons (s : List Char) (h : s ≠ []) :
    chunk4000 s = s.take 4000 :: chunk4000 (s.drop 4000) := by
  rw [chunk4000]
  simp [h]

theorem chunk4000_flatten (s : List Char) : (chunk4000 s).flatten = s := by
  by_cases h : s = []
  · subst h
    simp [chunk4000_nil]
  · rw [chunk4000_cons s h]
    have ih := chunk4000_flatten (s.drop 4000)
    simp [ih]
termination_by s.length
decreasing_by
  have := List.length_pos.mpr h
  simp [List.length_drop]
  omega

theorem chunk4000_short (c : List Char) (s : List Char) (hc : c ∈ chunk4000 s) :
    c.length ≤ 4000 := by
  by_cases h : s = []
  · subst h
    simp [chunk4000_nil] at hc
  · rw [chunk4000_cons s h] at hc
    rcases List.mem_cons.mp hc with rfl | hm
    · simp [List.length_take]
    · exact chunk4000_short c (s.drop 4000) hm
termination_by s.length
decreasing_by
  have := List.length_pos.mpr h
  simp [List.length_drop]
  omega

theorem chunk4000_count (s : List Char) :
    (chunk4000 s).length = (s.length + 3999) / 4000 := by
  by_cases h : s = []
  · subst h
    simp [chunk4000_nil]
  · rw [chunk4000_cons s h]
    have ih := chunk4000_count (s.drop 4000)
    have := List.length_pos.mpr h
    rw [List.length_cons, ih, List.length_drop]
    omega
termination_by s.length
decreasing_by
  have := List.length_pos.mpr h
  simp [List.length_drop]
  omega

theorem send_text_chunks (s : List Char) :
    ∃ cs : List (List Char),
      send_message_to_telegram s false = cs.map Payload.textMsg ∧
      cs.flatten = s ∧ ∀ c ∈ cs, c.length ≤ 4000 := by
  by_cases h : 4000 < s.length
  · exact ⟨chunk4000 s, by rw [send_message_to_telegram]; simp [h],
      chunk4000_flatten s, fun c hc => chunk4000_short c s hc⟩
  · refine ⟨[s], by rw [send_message_to_telegram]; simp [h], by simp, ?_⟩
    intro c hc
    rcases List.mem_singleton.mp hc with rfl
    omega

/-- Claim C2 (confirmed): a plain-text message longer than 4000 characters
is sent as the list of its consecutive 4000-character chunks, each of
length at most 4000, in original order with concatenation equal to the
original; a 9000-character message yields exactly 3 chunks. -/
theorem C2_thm (s : List Char) (h : 4000 < s.length) :
    send_message_to_telegram s false = (chunk4000 s).map Payload.textMsg ∧
    (∀ c ∈ chunk4000 s, c.length ≤ 4000) ∧
    (chunk4000 s).flatten = s ∧
    (s.length = 9000 → (chunk4000 s).length = 3) := by
  refine ⟨by rw [send_message_to_telegram]; simp [h],
    fun c hc => chunk4000_short c s hc, chunk4000_flatten s, fun h9 => ?_⟩
  rw [chunk4000_count, h9]

/-- Witness for C2: a 9000-character message is sent as exactly 3 text
messages. -/
theorem C2_witness :
    (send_message_to_telegram (List.replicate 9000 'a') false).length = 3 := by
  have h := C2_thm (List.replicate 9000 'a') (by simp only [List.length_replicate]; omega)
  rw [h.1, List.length_map]
  exact h.2.2.2 (by simp only [List.length_replicate])

/-- Claim C3 (confirmed): an image-send whose message exceeds 1024
characters sends the first 1024 characters as the caption and resubmits
exactly the remaining characters through the plain-text path (a single
follow-up message whenever the remainder fits in one chunk), losing and
duplicating nothing; a 1500-character message leaves a 476-character
remainder. -/
theorem C3_thm (s : List Char) (h : 1024 < s.length) :
    ∃ rest : List (List Char),
      send_message_to_telegram s true =
        Payload.photoMsg (s.take 1024) :: rest.map Payload.textMsg ∧
      (s.take 1024).length = 1024 ∧
      rest.flatten = s.drop 1024 ∧
      s.take 1024 ++ rest.flatten = s ∧
      (s.length ≤ 5024 → rest = [s.drop 1024]) ∧
      (s.length = 1500 → (s.drop 1024).length = 476) := by
  obtain ⟨cs, hcs, hflat, hle⟩ := send_text_chunks (s.drop 1024)
  refine ⟨cs, ?_, ?_, hflat, ?_, ?_, ?_⟩
  · rw [send_message_to_telegram]
    simp only [if_pos]
    rw [dif_pos h, hcs]
  · rw [List.length_take]
    omega
  · rw [hflat]
    exact List.take_append_drop 1024 s
  · intro h5
    have hlen : ¬ 4000 < s.length - 1024 := by omega
    have hone : send_message_to_telegram (s.drop 1024) false =
        [Payload.textMsg (s.drop 1024)] := by
      rw [send_message_to_telegram]
      simp [List.length_drop, hlen]
    rw [hone] at hcs
    rcases cs with _ | ⟨c, cs'⟩
    · simp only [List.map_nil] at hcs
      exact List.noConfusion hcs
    · simp only [List.map_cons] at hcs
      injection hcs with h1 h2
      injection h1 with h1
      subst h1
      have h2' := h2.symm
      rw [List.map_eq_nil_iff] at h2'
      rw [h2']
  · intro h15
    rw [List.length_drop]
    omega

/-- Witness for C3: a 1500-character image-send yields a 1024-character
caption and follow-up text totalling 476 characters. -/
theorem C3_witness :
    ∃ rest : List (List Char),
      send_message_to_telegram (List.replicate 1500 'a') true =
        Payload.photoMsg ((List.replicate 1500 'a').take 1024) ::
          rest.map Payload.textMsg ∧
      rest.flatten.length = 476 := by
  obtain ⟨rest, h1, h2, h3, h4, h5, h6⟩ :=
    C3_thm (List.replicate 1500 'a') (by simp only [List.length_replicate]; omega)
  exact ⟨rest, h1, by rw [h3]; exact h6 (by simp only [List.length_replicate])⟩

/-- Claim C6 (confirmed): the derived `volume_to_market_cap` field equals
`volume_24h / market_cap` when `market_cap` is positive and equals exactly
0 when `market_cap` is 0, and the DataFrame row constructor always fills
the field through this guarded function, so no unguarded division is ever
evaluated. -/
theorem C6_thm (v mc : ℚ) :
    (0 < mc → volume_to_market_cap v mc = v / mc) ∧
    (mc = 0 → volume_to_market_cap v mc = 0) ∧
    (∀ (i : ℚ) (n s : String) (p p1 p24 p7 : ℚ),
      (mkCoinRow i n s p mc v p1 p24 p7).volume_to_market_cap =
        volume_to_market_cap v mc) := by
  refine ⟨fun h => if_pos h, fun h => ?_, fun i n s p p1 p24 p7 => rfl⟩
  rw [volume_to_market_cap, h]
  simp

/-- Witness for C6 at volume 6, market cap 3 (ratio 2) and at market cap
0 (ratio 0). -/
theorem C6_witness :
    volume_to_market_cap 6 3 = 2 ∧ volume_to_market_cap 6 0 = 0 := by
  constructor
  · rw [(C6_thm 6 3).1 (by norm_num)]
    norm_num
  · exact (C6_thm 6 0).2.1 rfl

/-- Claim C7 (confirmed): for a snapshot of non-negative market caps, the
`market_dominance` column sums over the full snapshot to at most 100, with
equality exactly when the total market cap is positive (it is 0 when the
total is 0). -/
theorem C7_thm (l : List Coin) (h : ∀ c ∈ l, 0 ≤ c.market_cap) :
    (l.map (market_dominance l)).sum ≤ 100 ∧
    (0 < total_market_cap l → (l.map (market_dominance l)).sum = 100) := by
  have hT : 0 ≤ total_market_cap l := by
    refine List.sum_nonneg ?_
    intro x hx
    rcases List.mem_map.mp hx with ⟨c, hc, rfl⟩
    exact h c hc
  have key : 0 < total_market_cap l → (l.map (market_dominance l)).sum = 100 := by
    intro hpos
    have hne : total_market_cap l ≠ 0 := ne_of_gt hpos
    have hmap : l.map (market_dominance l) =
        l.map fun c => c.market_cap * (100 / total_market_cap l) := by
      refine List.map_congr_left fun c _ => ?_
      rw [market_dominance, if_pos hpos]
      field_simp
    rw [hmap]
    have := List.sum_map_mul_right l Coin.market_cap (100 / total_market_cap l)
    simp only [id] at this
    rw [show (l.map fun c => c.market_cap * (100 / total_market_cap l)).sum =
        (l.map Coin.market_cap).sum * (100 / total_market_cap l) from this]
    rw [show (l.map Coin.market_cap).sum = total_market_cap l from rfl]
    field_simp
  refine ⟨?_, key⟩
  rcases lt_or_eq_of_le hT with hpos | hzero
  · rw [key hpos]
  · have hzm : l.map (market_dominance l) = l.map fun _ => (0 : ℚ) := by
      refine List.map_congr_left fun c _ => ?_
      rw [market_dominance, if_neg (by rw [← hzero]; exact lt_irrefl _)]
    rw [hzm]
    simp

/-- Witness for C7 at the two-coin snapshot with market caps 30 and 70:
the dominance column sums to exactly 100. -/
theorem C7_witness : (twoCoins.map (market_dominance twoCoins)).sum = 100 := by
  refine (C7_thm twoCoins ?_).2 ?_
  · intro c hc
    fin_cases hc <;> norm_num [sampleCoin]
  · norm_num [total_market_cap, twoCoins, sampleCoin]

/-! ## Helper lemmas about the alert loop -/

theorem foldl_append_eq_map (f : Coin → Alert) :
    ∀ (l : List Coin) (acc : List Alert),
      l.foldl (fun alerts c => alerts ++ [f c]) acc = acc ++ l.map f
  | [], acc => by simp
  | a :: l, acc => by
    simp only [List.foldl_cons, List.map_cons]
    rw [foldl_append_eq_map f l]
    simp

/-- Claim C10 (confirmed): the big-mover check emits one alert per asset
with `|percent_change_1h| > 10` — it equals the filtered snapshot mapped
through the alert constructor, an alert is emitted for an asset iff its
absolute 1h change strictly exceeds 10, and an empty (or absent) snapshot
yields no alerts. -/
theorem C10_thm (l : List Coin) :
    check_for_alerts (some l) =
      (l.filter fun c => 10 < |c.percent_change_1h|).map mkAlert ∧
    (check_for_alerts (some l)).length =
      (l.filter fun c => 10 < |c.percent_change_1h|).length ∧
    (∀ a, a ∈ check_for_alerts (some l) ↔
      ∃ c ∈ l, 10 < |c.percent_change_1h| ∧ a = mkAlert c) ∧
    check_for_alerts none = [] ∧ check_for_alerts (some []) = [] := by
  have hmain : check_for_alerts (some l) =
      (l.filter fun c => 10 < |c.percent_change_1h|).map mkAlert := by
    rcases l with _ | ⟨a, l'⟩
    · rfl
    · rw [show check_for_alerts (some (a :: l')) =
          ((a :: l').filter fun c => 10 < |c.percent_change_1h|).foldl
            (fun alerts c => alerts ++ [mkAlert c]) [] from rfl]
      rw [foldl_append_eq_map]
      simp
  refine ⟨hmain, by rw [hmain, List.length_map], fun a => ?_, rfl, rfl⟩
  rw [hmain]
  constructor
  · intro ha
    rcases List.mem_map.mp ha with ⟨c, hc, rfl⟩
    have := List.mem_filter.mp hc
    exact ⟨c, this.1, by simpa using this.2, rfl⟩
  · rintro ⟨c, hc, hbig, rfl⟩
    exact List.mem_map.mpr ⟨c, List.mem_filter.mpr ⟨hc, by simpa using hbig⟩, rfl⟩

/-- Witness for C10: in a two-coin snapshot where only one coin moved more
than 10% in an hour, exactly that coin's alert is emitted. -/
theorem C10_witness :
    check_for_alerts (some [sampleCoin "A" 12 0 0 1 1, sampleCoin "B" 3 0 0 1 1]) =
      [mkAlert (sampleCoin "A" 12 0 0 1 1)] := by
  rw [(C10_thm [sampleCoin "A" 12 0 0 1 1, sampleCoin "B" 3 0 0 1 1]).1]
  decide

/-! ## Helper lemmas about the parsing and DB-save loops -/

theorem extract_list_error {c : RawCoin} (hc : extractCoin c = Except.error ()) :
    ∀ {data : List RawCoin}, c ∈ data → extract_list data = Except.error ()
  | [], hmem => absurd hmem (List.not_mem_nil c)
  | d :: rest, hmem => by
    simp only [extract_list]
    rcases List.mem_cons.mp hmem with rfl | hmem'
    · rw [hc]
      rfl
    · cases hd : extractCoin d with
      | error e => rfl
      | ok x => rw [extract_list_error hc hmem']; rfl

theorem foldl_db_filterMap :
    ∀ (l : List RawCoin) (acc : List DbRow),
      l.foldl (fun rows c =>
        match extractDbRow c with
        | Except.ok r => rows ++ [r]
        | Except.error _ => rows) acc =
      acc ++ l.filterMap fun c => (extractDbRow c).toOption
  | [], acc => by simp
  | a :: l, acc => by
    simp only [List.foldl_cons, List.filterMap_cons]
    cases hd : extractDbRow a with
    | ok r =>
      rw [foldl_db_filterMap l (acc ++ [r])]
      simp [Except.toOption]
    | error e =>
      rw [foldl_db_filterMap l acc]
      simp [Except.toOption]

/-- Claim C4 (corrected) — counterexample: a payload whose first asset is
missing its `market_cap` field makes `convert_to_dataframe` raise (the
whole cycle aborts with the well-formed second asset unparsed), even
though the DB save of the same payload skips just the bad asset. -/
theorem C4_counterexample :
    convert_to_dataframe [badRaw, goodRaw] = Except.error () ∧
    (process_crypto_data (some [badRaw, goodRaw])).2 = true ∧
    save_data_to_db [badRaw, goodRaw] =
      [⟨1, "BTC", "Bitcoin", 50000, 1000000000, 30000000, 1, 2, 3⟩] :=
  ⟨rfl, rfl, rfl⟩

/-- Claim C4 (corrected) — amended: a field-access failure on a single
asset is caught and only that asset is skipped during the database save
(the inserted rows are exactly the successfully extracted ones, in order);
during conversion of the payload into the analysis DataFrame such a
failure is not caught and aborts the whole conversion. -/
theorem C4_amended_thm :
    (∀ (data : List RawCoin) (c : RawCoin), c ∈ data →
      extractCoin c = Except.error () →
      convert_to_dataframe data = Except.error ()) ∧
    (∀ data : List RawCoin,
      save_data_to_db data = data.filterMap fun c => (extractDbRow c).toOption) := by
  constructor
  · intro data c hmem hc
    rcases data with _ | ⟨d, rest⟩
    · exact absurd hmem (List.not_mem_nil c)
    · rw [show convert_to_dataframe (d :: rest) =
          (extract_list (d :: rest)).map some from rfl]
      rw [extract_list_error hc hmem]
      rfl
  · intro data
    rcases data with _ | ⟨d, rest⟩
    · rfl
    · rw [show save_data_to_db (d :: rest) =
          (d :: rest).foldl (fun rows c =>
            match extractDbRow c with
            | Except.ok r => rows ++ [r]
            | Except.error _ => rows) [] from rfl]
      rw [foldl_db_filterMap]
      simp

/-- Witness for the amended C4: the one-asset payload with a missing
market_cap makes the conversion raise. -/
theorem C4_witness : convert_to_dataframe [badRaw] = Except.error () :=
  C4_amended_thm.1 [badRaw] badRaw (List.mem_singleton.mpr rfl) rfl

/-- Claim C1 (corrected) — counterexample: on an HTTP 500 fetch the cycle
makes zero Notifier calls, not exactly one — the failure is only logged. -/
theorem C1_counterexample :
    ¬ ((process_crypto_data (get_crypto_data
        (FetchOutcome.response 500 [goodRaw]))).1.telegramCalls = 1) := by
  decide

/-- Claim C1 (corrected) — amended: when the fetch fails (network error,
timeout, or any non-200 response), `get_crypto_data` returns no data and
the cycle is skipped with no store writes and no Notifier call (the error
is only logged), returning normally so the loop continues; only the simple
CryptoBot.py variant attempts exactly one warning message on fetch
failure. -/
theorem C1_amended_thm :
    (∀ (s : Nat) (body : List RawCoin), s ≠ 200 →
      get_crypto_data (FetchOutcome.response s body) = none) ∧
    get_crypto_data FetchOutcome.requestException = none ∧
    get_crypto_data FetchOutcome.otherException = none ∧
    (∀ o : FetchOutcome, get_crypto_data o = none →
      process_crypto_data (get_crypto_data o) = (⟨0, [], 0, 0⟩, false)) ∧
    (∀ interval : Nat, loop_iter interval CycleOutcome.ok = (true, [interval])) ∧
    CryptoBot.main_iteration none = [CryptoBot.SimplePayload.warning] := by
  refine ⟨fun s body hs => ?_, rfl, rfl, fun o ho => ?_, fun interval => rfl, rfl⟩
  · simp [get_crypto_data, hs]
  · rw [ho]
    rfl

/-- Witness for the amended C1: an HTTP 500 response yields a cycle with
no raw-archive write, no DB rows, no analysis rows, no Telegram calls, and
no exception. -/
theorem C1_witness :
    process_crypto_data (get_crypto_data (FetchOutcome.response 500 [goodRaw])) =
      (⟨0, [], 0, 0⟩, false) :=
  C1_amended_thm.2.2.2.1 (FetchOutcome.response 500 [goodRaw])
    (C1_amended_thm.1 500 [goodRaw] (by decide))

/-- Claim C9 (corrected) — counterexample: an unexpected exception in the
first immediate startup cycle terminates the process, because that call
runs outside the try/except of the loop. -/
theorem C9_counterexample :
    CryptoBot1.main 3600 CycleOutcome.exn [] = Except.error PyExn.otherExn ∧
    PyExn.otherExn ≠ PyExn.keyboardInterrupt :=
  ⟨rfl, by decide⟩

/-- Claim C9 (corrected) — amended: every exception raised by a cycle
inside the while loop is caught (the loop never terminates the process
from within: `main` run with a successful first cycle always returns the
loop trace), a caught non-interrupt exception is followed by a fixed
60-second backoff before the next interval, a KeyboardInterrupt stops the
loop cleanly; but an unexpected exception terminates the process exactly
when it occurs in the first immediate startup cycle, which runs
unprotected. -/
theorem C9_amended_thm :
    (∀ (interval : Nat) (rest : List CycleOutcome),
      CryptoBot1.main interval CycleOutcome.ok rest =
        Except.ok (main_loop interval rest)) ∧
    (∀ interval : Nat,
      loop_iter interval CycleOutcome.exn = (true, [interval, 60])) ∧
    (∀ interval : Nat,
      loop_iter interval CycleOutcome.kbInterrupt = (false, [interval])) ∧
    (∀ (interval : Nat) (rest : List CycleOutcome),
      main_loop interval (CycleOutcome.exn :: rest) =
        interval :: 60 :: main_loop interval rest) ∧
    (∀ (interval : Nat) (first : CycleOutcome) (rest : List CycleOutcome),
      CryptoBot1.main interval first rest = Except.error PyExn.otherExn ↔
        first = CycleOutcome.exn) := by
  refine ⟨fun i r => rfl, fun i => rfl, fun i => rfl, fun i r => rfl, fun i f r => ?_⟩
  cases f <;> simp [CryptoBot1.main, run_cycle]
